import Mathlib

/-!
Shallow embedding of `pkg/promtail/targets/manager.go` (the multi-backend
target-manager orchestration layer of the agent).

Modelling conventions:
* External collaborators (`stdin.NewStdinTargetManager`, `positions.New`,
  the per-kind backend constructors) are not in the repository source; they
  are passed in as an environment `Env` of constructor outcomes, following
  the Go convention of returning a value or an error.
* Go's `map[string][]scrapeconfig.Config` keyed by the five scrape-config
  key constants is modelled by the structure `Groups` with one list field
  per key; Go map iteration order over those keys is unspecified, and the
  embedding fixes the order `file, journal, syslog, gcplog, push`
  (`kindOrder`).  None of the verified properties depend on that order.
* Construction and shutdown record a trace of the externally observable
  calls they perform (`Effect`, `StopEvent`), so that ordering and
  creation/no-creation properties can be stated.
* A backend (the Go `targetManager` interface) is modelled by the data that
  its four methods return; the per-job maps returned by `ActiveTargets` and
  `AllTargets` are association lists whose keys are unique (a Go map cannot
  hold a key twice); that uniqueness appears as a `Nodup` hypothesis where
  a statement needs it.
-/

abbrev Target := Nat

abbrev Err := String

/-- One scrape configuration (`scrapeconfig.Config`): a union whose populated
field decides the backend kind.  `HasServiceDiscoveryConfig` is a method of
the `scrapeconfig` package (outside this repository's source); it is
modelled as a boolean field holding the method's result. -/
structure Config where
  hasServiceDiscoveryConfig : Bool
  journalConfig : Option Nat
  syslogConfig : Option Nat
  gcplogConfig : Option Nat
  pushConfig : Option Nat
deriving DecidableEq

/-- The five backend kinds, corresponding to the key constants
`FileScrapeConfigs`, `JournalScrapeConfigs`, `SyslogScrapeConfigs`,
`GcplogScrapeConfigs`, `PushScrapeConfigs`. -/
inductive Kind where
  | file
  | journal
  | syslog
  | gcplog
  | push
deriving DecidableEq

/-- One constructed backend handle (the Go `targetManager` interface),
modelled by the results of its methods.  `id` identifies the handle in the
stop trace. -/
structure Backend where
  id : Nat
  ready : Bool
  activeTargets : List (String × List Target)
  allTargets : List (String × List Target)
deriving DecidableEq

/-- A position store handle (`positions.Positions`). -/
structure Positions where
  id : Nat
deriving DecidableEq

/-- The aggregate manager (`TargetManagers` struct): the backend list and
the optional position store (nil in stdin mode). -/
structure TargetManagers where
  targetManagers : List Backend
  positions : Option Positions
deriving DecidableEq

/-- Outcomes of the external constructor calls made by `NewTargetManagers`.
Each field stands for one collaborator outside this repository's source. -/
structure Env where
  newStdin : List Config → Except Err Backend
  newPositions : Except Err Positions
  mkTargetManager : Kind → List Config → Except Err Backend

/-- Externally observable calls performed during construction. -/
inductive Effect where
  | newStdinCall
  | newPositionsCall
  | newMetrics (k : Kind)
  | ctorCall (k : Kind)
deriving DecidableEq

/-- Externally observable calls performed by `Stop`. -/
inductive StopEvent where
  | backendStop (id : Nat)
  | positionsStop
deriving DecidableEq

/-- The grouping map `targetScrapeConfigs`: one list of configs per kind. -/
structure Groups where
  file : List Config
  journal : List Config
  syslog : List Config
  gcplog : List Config
  push : List Config
deriving DecidableEq

def emptyGroups : Groups := ⟨[], [], [], [], []⟩

def Groups.get (g : Groups) : Kind → List Config
  | Kind.file => g.file
  | Kind.journal => g.journal
  | Kind.syslog => g.syslog
  | Kind.gcplog => g.gcplog
  | Kind.push => g.push

/-- The classification loop of `NewTargetManagers` (manager.go lines
70-85): each config is tested against the switch cases in source order and
appended to the group of the first matching case; a config matching no case
aborts with the `unknown scrape config` error. -/
def classifyLoop : Groups → List Config → Except Err Groups
  | g, [] => Except.ok g
  | g, cfg :: rest =>
    if cfg.hasServiceDiscoveryConfig then
      classifyLoop { g with file := g.file ++ [cfg] } rest
    else if cfg.journalConfig.isSome then
      classifyLoop { g with journal := g.journal ++ [cfg] } rest
    else if cfg.syslogConfig.isSome then
      classifyLoop { g with syslog := g.syslog ++ [cfg] } rest
    else if cfg.gcplogConfig.isSome then
      classifyLoop { g with gcplog := g.gcplog ++ [cfg] } rest
    else if cfg.pushConfig.isSome then
      classifyLoop { g with push := g.push ++ [cfg] } rest
    else
      Except.error "unknown scrape config"

/-- The spec-side classifier: the first matching predicate of the fixed
priority order (service-discovery, journal, syslog, gcplog, push), `none`
when no predicate matches.  This definition follows the spec's wording; the
refinement theorems relate it to `classifyLoop`, which is translated from
the source. -/
def firstMatchKind (cfg : Config) : Option Kind :=
  if cfg.hasServiceDiscoveryConfig then some Kind.file
  else if cfg.journalConfig.isSome then some Kind.journal
  else if cfg.syslogConfig.isSome then some Kind.syslog
  else if cfg.gcplogConfig.isSome then some Kind.gcplog
  else if cfg.pushConfig.isSome then some Kind.push
  else none

/-- Appending a config to the group of kind `k`, as the matching switch
case does. -/
def Groups.add (g : Groups) (k : Kind) (c : Config) : Groups :=
  match k with
  | Kind.file => { g with file := g.file ++ [c] }
  | Kind.journal => { g with journal := g.journal ++ [c] }
  | Kind.syslog => { g with syslog := g.syslog ++ [c] }
  | Kind.gcplog => { g with gcplog := g.gcplog ++ [c] }
  | Kind.push => { g with push := g.push ++ [c] }

/-- The error-wrap messages of the backend-constructor switch (manager.go
lines 114, 126, 137, 148, 159).  The gcplog case reuses the syslog message,
exactly as the source does on line 148. -/
def wrapMsg : Kind → String
  | Kind.file => "failed to make file target manager"
  | Kind.journal => "failed to make journal target manager"
  | Kind.syslog => "failed to make syslog target manager"
  | Kind.gcplog => "failed to make syslog target manager"
  | Kind.push => "failed to make Loki Push API target manager"

/-- `errors.Wrap(err, msg)` produces the message `msg ++ ": " ++ err`. -/
def wrap (msg e : Err) : Err := msg ++ ": " ++ e

/-- The fixed iteration order the embedding uses for the constructor loop
over the grouping map (Go iterates the map in unspecified order). -/
def kindOrder : List Kind := [Kind.file, Kind.journal, Kind.syslog, Kind.gcplog, Kind.push]

/-- The backend-constructor loop (manager.go lines 102-165): for each kind
present in the grouping map (= with a non-empty group), call that kind's
constructor with the group; on failure wrap the error with the kind's
message and abort; on success append the handle to the accumulator. -/
def ctorLoop (env : Env) (g : Groups) : List Kind → List Backend → List Effect × Except Err (List Backend)
  | [], acc => ([], Except.ok acc)
  | k :: ks, acc =>
    if (g.get k).length > 0 then
      match env.mkTargetManager k (g.get k) with
      | Except.error e => ([Effect.ctorCall k], Except.error (wrap (wrapMsg k) e))
      | Except.ok b =>
        let r := ctorLoop env g ks (acc ++ [b])
        (Effect.ctorCall k :: r.1, r.2)
    else
      ctorLoop env g ks acc

/-- The lazy metrics-registry creation (manager.go lines 87-100): a
registry is created for file, syslog and gcplog, each only when its group
is non-empty; journal and push have no registry. -/
def metricsEffects (g : Groups) : List Effect :=
  (if g.file.length > 0 then [Effect.newMetrics Kind.file] else []) ++
  (if g.syslog.length > 0 then [Effect.newMetrics Kind.syslog] else []) ++
  (if g.gcplog.length > 0 then [Effect.newMetrics Kind.gcplog] else [])

/-- `NewTargetManagers` (manager.go lines 43-172).  Returns the trace of
external calls, the constructed manager (or `none`), and the error (or
`none`), mirroring the Go `(*TargetManagers, error)` return.  The stdin
branch short-circuits before the position store and the classification
loop; otherwise the position store is created first, then the configs are
classified, then metrics registries are created for the non-empty groups
that need one, then one backend per non-empty group is constructed. -/
def NewTargetManagers (env : Env) (stdinMode : Bool) (scrapeConfigs : List Config) :
    List Effect × Option TargetManagers × Option Err :=
  if stdinMode then
    match env.newStdin scrapeConfigs with
    | Except.error e => ([Effect.newStdinCall], none, some e)
    | Except.ok b =>
      ([Effect.newStdinCall], some { targetManagers := [b], positions := none }, none)
  else
    match env.newPositions with
    | Except.error e => ([Effect.newPositionsCall], none, some e)
    | Except.ok pos =>
      match classifyLoop emptyGroups scrapeConfigs with
      | Except.error e => ([Effect.newPositionsCall], none, some e)
      | Except.ok g =>
        let r := ctorLoop env g kindOrder []
        match r.2 with
        | Except.error e =>
          (Effect.newPositionsCall :: (metricsEffects g ++ r.1), none, some e)
        | Except.ok tms =>
          (Effect.newPositionsCall :: (metricsEffects g ++ r.1),
           some { targetManagers := tms, positions := some pos }, none)

/-- `(tm *TargetManagers) Stop` (manager.go lines 207-214): stop every
backend in list order, then stop the position store when one exists. -/
def TargetManagers.Stop (tm : TargetManagers) : List StopEvent :=
  let evs := tm.targetManagers.foldl (fun acc t => acc ++ [StopEvent.backendStop t.id]) []
  match tm.positions with
  | some _ => evs ++ [StopEvent.positionsStop]
  | none => evs

/-- The loop body of `(tm *TargetManagers) Ready` (manager.go lines
197-204): return true at the first ready backend, false after the list is
exhausted. -/
def readyLoop : List Backend → Bool
  | [] => false
  | t :: rest => if t.ready then true else readyLoop rest

def TargetManagers.Ready (tm : TargetManagers) : Bool :=
  readyLoop tm.targetManagers

/-- Go map read: the value stored for `j`, nil (= `[]`) when absent. -/
def lookupJob : List (String × List Target) → String → List Target
  | [], _ => []
  | (k, v) :: rest, j => if k = j then v else lookupJob rest j

/-- `result[job] = append(result[job], targets...)`: extend the entry for
`j` when present, otherwise add one. -/
def appendJob : List (String × List Target) → String → List Target → List (String × List Target)
  | [], j, ts => [(j, ts)]
  | (k, v) :: rest, j, ts =>
    if k = j then (k, v ++ ts) :: rest else (k, v) :: appendJob rest j ts

/-- `(tm *TargetManagers) ActiveTargets` (manager.go lines 175-183): merge
every backend's per-job map into one map, appending each backend's list for
a job to the accumulated list for that job, in backend-list order. -/
def TargetManagers.ActiveTargets (tm : TargetManagers) : List (String × List Target) :=
  tm.targetManagers.foldl
    (fun result t => t.activeTargets.foldl (fun r p => appendJob r p.1 p.2) result) []

/-- `(tm *TargetManagers) AllTargets` (manager.go lines 186-194): same
merge as `ActiveTargets`, over the backends' all-target maps. -/
def TargetManagers.AllTargets (tm : TargetManagers) : List (String × List Target) :=
  tm.targetManagers.foldl
    (fun result t => t.allTargets.foldl (fun r p => appendJob r p.1 p.2) result) []

/-- All values recorded for key `j`, concatenated in entry order. -/
def collectJob : List (String × List Target) → String → List Target
  | [], _ => []
  | (k, v) :: rest, j => if k = j then v ++ collectJob rest j else collectJob rest j

/-! ### Concrete instances used by the closed-form theorems -/

def exBackend : Backend := { id := 0, ready := false, activeTargets := [], allTargets := [] }

def readyBackend : Backend := { id := 1, ready := true, activeTargets := [], allTargets := [] }

def backendA : Backend :=
  { id := 2, ready := true, activeTargets := [("x", [1])], allTargets := [("x", [5])] }

def backendB : Backend :=
  { id := 3, ready := false, activeTargets := [("x", [2]), ("y", [3])], allTargets := [("x", [6])] }

def posEx : Positions := ⟨7⟩

def tmStopEx : TargetManagers := { targetManagers := [exBackend, readyBackend], positions := some posEx }

def tmEmptyEx : TargetManagers := { targetManagers := [], positions := none }

def tmReadyEx : TargetManagers := { targetManagers := [exBackend, readyBackend], positions := none }

def tmMergeEx : TargetManagers := { targetManagers := [backendA, backendB], positions := none }

def fileCfg : Config :=
  { hasServiceDiscoveryConfig := true, journalConfig := none, syslogConfig := none,
    gcplogConfig := none, pushConfig := none }

def journalCfg : Config :=
  { hasServiceDiscoveryConfig := false, journalConfig := some 1, syslogConfig := none,
    gcplogConfig := none, pushConfig := none }

def journalCfg2 : Config :=
  { hasServiceDiscoveryConfig := false, journalConfig := some 9, syslogConfig := none,
    gcplogConfig := none, pushConfig := none }

def gcplogOnlyCfg : Config :=
  { hasServiceDiscoveryConfig := false, journalConfig := none, syslogConfig := none,
    gcplogConfig := some 0, pushConfig := none }

/-- A config whose every discriminator is unpopulated: no switch case matches. -/
def unknownCfg : Config :=
  { hasServiceDiscoveryConfig := false, journalConfig := none, syslogConfig := none,
    gcplogConfig := none, pushConfig := none }

/-- An environment whose external constructors all succeed. -/
def envNoMatch : Env :=
  { newStdin := fun _ => Except.error "stdin unavailable",
    newPositions := Except.ok posEx,
    mkTargetManager := fun _ _ => Except.ok exBackend }

/-- An environment whose stdin constructor succeeds. -/
def envStdinOk : Env :=
  { newStdin := fun _ => Except.ok exBackend,
    newPositions := Except.ok posEx,
    mkTargetManager := fun _ _ => Except.ok exBackend }

/-- An environment in which only the gcplog backend constructor fails. -/
def envGcBug : Env :=
  { newStdin := fun _ => Except.error "stdin unavailable",
    newPositions := Except.ok posEx,
    mkTargetManager := fun k _ =>
      if k = Kind.gcplog then Except.error "boom" else Except.ok exBackend }

/-! ### Classification lemmas -/

theorem Groups.get_add (g : Groups) (k k' : Kind) (c : Config) :
    (g.add k' c).get k = if k = k' then g.get k ++ [c] else g.get k := by
  cases k <;> cases k' <;> simp [Groups.add, Groups.get]

theorem classifyLoop_cons (g : Groups) (c : Config) (rest : List Config) :
    classifyLoop g (c :: rest) =
      match firstMatchKind c with
      | some k => classifyLoop (g.add k c) rest
      | none => Except.error "unknown scrape config" := by
  by_cases h1 : c.hasServiceDiscoveryConfig
  · simp [classifyLoop, firstMatchKind, Groups.add, h1]
  by_cases h2 : c.journalConfig.isSome
  · simp [classifyLoop, firstMatchKind, Groups.add, h1, h2]
  by_cases h3 : c.syslogConfig.isSome
  · simp [classifyLoop, firstMatchKind, Groups.add, h1, h2, h3]
  by_cases h4 : c.gcplogConfig.isSome
  · simp [classifyLoop, firstMatchKind, Groups.add, h1, h2, h3, h4]
  by_cases h5 : c.pushConfig.isSome
  · simp [classifyLoop, firstMatchKind, Groups.add, h1, h2, h3, h4, h5]
  · simp [classifyLoop, firstMatchKind, h1, h2, h3, h4, h5]

theorem classifyLoop_ok_get (cfgs : List Config) :
    ∀ g₀ g : Groups, classifyLoop g₀ cfgs = Except.ok g →
      ∀ k, g.get k = g₀.get k ++ cfgs.filter (fun c => firstMatchKind c == some k) := by
  induction cfgs with
  | nil =>
    intro g₀ g h k
    simp [classifyLoop] at h
    simp [h]
  | cons c rest ih =>
    intro g₀ g h k
    rw [classifyLoop_cons] at h
    cases hc : firstMatchKind c with
    | none => simp [hc] at h
    | some k' =>
      rw [hc] at h
      have hrec := ih _ _ h k
      rw [hrec, Groups.get_add]
      by_cases hk : k = k'
      · subst hk
        simp [List.filter_cons, hc]
      · simp [List.filter_cons, hc, hk, Ne.symm hk]

theorem classifyLoop_error_of_unmatched (cfgs : List Config) :
    ∀ g₀ : Groups, (∃ c ∈ cfgs, firstMatchKind c = none) →
      classifyLoop g₀ cfgs = Except.error "unknown scrape config" := by
  induction cfgs with
  | nil => intro g₀ h; simp at h
  | cons c rest ih =>
    intro g₀ h
    rw [classifyLoop_cons]
    cases hc : firstMatchKind c with
    | none => simp
    | some k =>
      simp only []
      apply ih
      rcases h with ⟨c', hmem, hc'⟩
      rcases List.mem_cons.mp hmem with rfl | hmem'
      · rw [hc] at hc'; exact absurd hc' (by simp)
      · exact ⟨c', hmem', hc'⟩

/-! ### Construction path lemmas -/

theorem newTargetManagers_classify_error (env : Env) (cfgs : List Config) (p : Positions)
    (e : Err) (hp : env.newPositions = Except.ok p)
    (he : classifyLoop emptyGroups cfgs = Except.error e) :
    NewTargetManagers env false cfgs = ([Effect.newPositionsCall], none, some e) := by
  simp [NewTargetManagers, hp, he]

theorem newTargetManagers_classify_ok (env : Env) (cfgs : List Config) (p : Positions)
    (g : Groups) (hp : env.newPositions = Except.ok p)
    (hg : classifyLoop emptyGroups cfgs = Except.ok g) :
    (NewTargetManagers env false cfgs).1 =
      Effect.newPositionsCall :: (metricsEffects g ++ (ctorLoop env g kindOrder []).1) := by
  simp only [NewTargetManagers, hp, hg, Bool.false_eq_true, if_false]
  cases h : (ctorLoop env g kindOrder []).2 <;> simp [h]

theorem ctorLoop_effects (env : Env) (g : Groups) (ks : List Kind) :
    ∀ acc : List Backend, ∀ ef ∈ (ctorLoop env g ks acc).1, ∃ k, ef = Effect.ctorCall k := by
  induction ks with
  | nil => intro acc ef h; simp [ctorLoop] at h
  | cons k ks ih =>
    intro acc ef h
    by_cases hk : (g.get k).length > 0
    · simp only [ctorLoop, hk, if_true] at h
      cases hc : env.mkTargetManager k (g.get k) with
      | error e => rw [hc] at h; simp at h; exact ⟨k, h⟩
      | ok b =>
        rw [hc] at h
        simp only [List.mem_cons] at h
        rcases h with rfl | h
        · exact ⟨k, rfl⟩
        · exact ih _ ef h
    · simp only [ctorLoop, hk, if_false] at h
      exact ih _ ef h

/-! ### Stop, Ready and merge lemmas -/

theorem foldl_append_singleton {α β : Type} (f : α → β) (l : List α) :
    ∀ init : List β, l.foldl (fun acc t => acc ++ [f t]) init = init ++ l.map f := by
  induction l with
  | nil => intro init; simp
  | cons a l ih => intro init; simp [ih]

theorem readyLoop_eq_true_iff (l : List Backend) :
    readyLoop l = true ↔ ∃ t ∈ l, t.ready = true := by
  induction l with
  | nil => simp [readyLoop]
  | cons t rest ih =>
    by_cases h : t.ready
    · simp [readyLoop, h]
    · simp [readyLoop, h, ih]

theorem lookupJob_appendJob (m : List (String × List Target)) (k j : String)
    (ts : List Target) :
    lookupJob (appendJob m k ts) j =
      if k = j then lookupJob m j ++ ts else lookupJob m j := by
  induction m with
  | nil =>
    simp only [appendJob, lookupJob]
    by_cases h : k = j <;> simp [h]
  | cons p rest ih =>
    obtain ⟨a, b⟩ := p
    by_cases hak : a = k
    · subst hak
      simp only [appendJob, if_pos rfl, lookupJob]
      by_cases haj : a = j <;> simp [haj]
    · simp only [appendJob, if_neg hak, lookupJob]
      by_cases haj : a = j
      · subst haj
        simp [Ne.symm hak]
      · simp [haj, ih]

theorem lookupJob_foldl_entries (entries : List (String × List Target)) (j : String) :
    ∀ res : List (String × List Target),
      lookupJob (entries.foldl (fun r p => appendJob r p.1 p.2) res) j =
        lookupJob res j ++ collectJob entries j := by
  induction entries with
  | nil => intro res; simp [collectJob]
  | cons p rest ih =>
    intro res
    obtain ⟨k, v⟩ := p
    simp only [List.foldl_cons, ih, lookupJob_appendJob, collectJob]
    by_cases h : k = j <;> simp [h]

theorem lookupJob_merge (f : Backend → List (String × List Target))
    (tms : List Backend) (j : String) :
    ∀ res : List (String × List Target),
      lookupJob
        (tms.foldl (fun result t => (f t).foldl (fun r p => appendJob r p.1 p.2) result) res) j =
        lookupJob res j ++ (tms.map (fun t => collectJob (f t) j)).flatten := by
  induction tms with
  | nil => intro res; simp
  | cons t rest ih =>
    intro res
    simp [List.foldl_cons, ih, lookupJob_foldl_entries]

theorem collectJob_eq_nil_of_not_mem (m : List (String × List Target)) (j : String)
    (h : j ∉ m.map Prod.fst) : collectJob m j = [] := by
  induction m with
  | nil => simp [collectJob]
  | cons p rest ih =>
    obtain ⟨k, v⟩ := p
    simp only [List.map_cons, List.mem_cons] at h
    push_neg at h
    simp only [collectJob, if_neg (fun hkj : k = j => h.1 hkj.symm)]
    exact ih h.2

theorem collectJob_eq_lookupJob_of_nodup (m : List (String × List Target)) (j : String)
    (h : (m.map Prod.fst).Nodup) : collectJob m j = lookupJob m j := by
  induction m with
  | nil => simp [collectJob, lookupJob]
  | cons p rest ih =>
    obtain ⟨k, v⟩ := p
    simp only [List.map_cons, List.nodup_cons] at h
    by_cases hkj : k = j
    · subst hkj
      simp [collectJob, lookupJob, collectJob_eq_nil_of_not_mem rest k h.1]
    · simp only [collectJob, lookupJob, if_neg hkj]
      exact ih h.2

theorem emptyGroups_get (k : Kind) : emptyGroups.get k = [] := by
  cases k <;> rfl

theorem mem_metricsEffects (g : Groups) (k : Kind) :
    Effect.newMetrics k ∈ metricsEffects g ↔
      (k = Kind.file ∧ g.file ≠ []) ∨ (k = Kind.syslog ∧ g.syslog ≠ []) ∨
        (k = Kind.gcplog ∧ g.gcplog ≠ []) := by
  unfold metricsEffects
  split_ifs with h1 h2 h3 <;>
    simp_all [List.length_pos, List.mem_append]

/-! ### Claim theorems -/

/-- Claim C2: `Stop` emits the stop of every backend handle, in
backend-list order, before the position-store stop; when no position store
exists, no position-store stop is attempted (and `Stop` is total, hence
cannot fail). -/
theorem c2_stop_ordering (tm : TargetManagers) :
    tm.Stop = tm.targetManagers.map (fun t => StopEvent.backendStop t.id) ++
        (match tm.positions with
         | some _ => [StopEvent.positionsStop]
         | none => []) ∧
      (tm.positions = none → StopEvent.positionsStop ∉ tm.Stop) := by
  have hfold :=
    foldl_append_singleton (fun t : Backend => StopEvent.backendStop t.id) tm.targetManagers []
  constructor
  · unfold TargetManagers.Stop
    cases tm.positions <;> simp [hfold]
  · intro hnone
    unfold TargetManagers.Stop
    rw [hnone]
    simp [hfold]

theorem c2_witness :
    tmStopEx.Stop =
        [StopEvent.backendStop 0, StopEvent.backendStop 1, StopEvent.positionsStop] ∧
      StopEvent.positionsStop ∉ tmEmptyEx.Stop := by
  constructor
  · exact ((c2_stop_ordering tmStopEx).1).trans (by decide)
  · exact (c2_stop_ordering tmEmptyEx).2 rfl

/-- Claim C5: `Ready` is true iff at least one backend handle reports
ready; in particular it is false for zero backends and false when every
backend reports not ready. -/
theorem c5_ready_or_law (tm : TargetManagers) :
    (tm.Ready = true ↔ ∃ t ∈ tm.targetManagers, t.ready = true) ∧
      (tm.targetManagers = [] → tm.Ready = false) ∧
      ((∀ t ∈ tm.targetManagers, t.ready = false) → tm.Ready = false) := by
  refine ⟨readyLoop_eq_true_iff tm.targetManagers, ?_, ?_⟩
  · intro h
    unfold TargetManagers.Ready
    rw [h]
    rfl
  · intro h
    cases hR : tm.Ready with
    | false => rfl
    | true =>
      obtain ⟨t, htm, ht⟩ := (readyLoop_eq_true_iff tm.targetManagers).mp hR
      rw [h t htm] at ht
      exact absurd ht (by simp)

theorem c5_witness : tmReadyEx.Ready = true ∧ tmEmptyEx.Ready = false := by
  constructor
  · exact (c5_ready_or_law tmReadyEx).1.mpr (by decide)
  · exact (c5_ready_or_law tmEmptyEx).2.1 rfl

/-- Claim C10: `NewTargetManagers` always returns either a manager and no
error, or no manager and an error; no error path yields a partially
constructed manager. -/
theorem c10_totality (env : Env) (mode : Bool) (cfgs : List Config) :
    ((NewTargetManagers env mode cfgs).2.1.isSome = true ∧
        (NewTargetManagers env mode cfgs).2.2 = none) ∨
      ((NewTargetManagers env mode cfgs).2.1 = none ∧
        (NewTargetManagers env mode cfgs).2.2.isSome = true) := by
  unfold NewTargetManagers
  cases mode with
  | true =>
    cases env.newStdin cfgs <;> simp
  | false =>
    cases hpos : env.newPositions with
    | error e => simp
    | ok p =>
      cases hcls : classifyLoop emptyGroups cfgs with
      | error e => simp
      | ok g =>
        cases hctor : (ctorLoop env g kindOrder []).2 <;> simp [hctor]

/-- Claim C6: for every job name, `ActiveTargets` (and `AllTargets`) maps
the job to the concatenation, in backend-list order, of the lists each
backend reports for that job — nothing dropped, nothing deduplicated.  The
`Nodup` hypotheses state the Go-map invariant that a backend's per-job map
holds each job name at most once. -/
theorem c6_merge_law (tm : TargetManagers) (job : String)
    (hA : ∀ t ∈ tm.targetManagers, (t.activeTargets.map Prod.fst).Nodup)
    (hB : ∀ t ∈ tm.targetManagers, (t.allTargets.map Prod.fst).Nodup) :
    lookupJob tm.ActiveTargets job =
        (tm.targetManagers.map (fun t => lookupJob t.activeTargets job)).flatten ∧
      lookupJob tm.AllTargets job =
        (tm.targetManagers.map (fun t => lookupJob t.allTargets job)).flatten := by
  constructor
  · unfold TargetManagers.ActiveTargets
    rw [lookupJob_merge (fun t => t.activeTargets) tm.targetManagers job []]
    have hmap : tm.targetManagers.map (fun t => collectJob t.activeTargets job) =
        tm.targetManagers.map (fun t => lookupJob t.activeTargets job) :=
      List.map_congr_left (fun t ht => collectJob_eq_lookupJob_of_nodup _ _ (hA t ht))
    rw [hmap]
    rfl
  · unfold TargetManagers.AllTargets
    rw [lookupJob_merge (fun t => t.allTargets) tm.targetManagers job []]
    have hmap : tm.targetManagers.map (fun t => collectJob t.allTargets job) =
        tm.targetManagers.map (fun t => lookupJob t.allTargets job) :=
      List.map_congr_left (fun t ht => collectJob_eq_lookupJob_of_nodup _ _ (hB t ht))
    rw [hmap]
    rfl

theorem c6_witness :
    lookupJob tmMergeEx.ActiveTargets "x" = [1, 2] ∧
      lookupJob tmMergeEx.AllTargets "x" = [5, 6] := by
  have h := c6_merge_law tmMergeEx "x" (by decide) (by decide)
  exact ⟨h.1.trans (by decide), h.2.trans (by decide)⟩

/-- Claim C1: in non-short-circuit mode the classification loop assigns
each config to the group of the first matching predicate of the priority
order (service-discovery, journal, syslog, gcplog, push): a successful
classification makes every group exactly the input's first-match-filtered
sublist; and when some config matches no predicate, construction returns
the `unknown scrape config` error, no manager, and constructs no
backend. -/
theorem c1_classifier_first_match (env : Env) (cfgs : List Config) (p : Positions)
    (hp : env.newPositions = Except.ok p) :
    (∀ g : Groups, classifyLoop emptyGroups cfgs = Except.ok g →
        ∀ k, g.get k = cfgs.filter (fun c => firstMatchKind c == some k)) ∧
      ((∃ c ∈ cfgs, firstMatchKind c = none) →
        (NewTargetManagers env false cfgs).2 = (none, some "unknown scrape config") ∧
          ∀ k, Effect.ctorCall k ∉ (NewTargetManagers env false cfgs).1) := by
  constructor
  · intro g hg k
    have h := classifyLoop_ok_get cfgs emptyGroups g hg k
    rw [emptyGroups_get, List.nil_append] at h
    exact h
  · intro hbad
    have herr := classifyLoop_error_of_unmatched cfgs emptyGroups hbad
    have h := newTargetManagers_classify_error env cfgs p _ hp herr
    rw [h]
    exact ⟨rfl, fun k hmem => by simp at hmem⟩

theorem c1_witness :
    (NewTargetManagers envNoMatch false [fileCfg, unknownCfg]).2 =
      (none, some "unknown scrape config") := by
  have h := c1_classifier_first_match envNoMatch [fileCfg, unknownCfg] posEx rfl
  exact (h.2 (by decide)).1

/-- Claim C9: classification preserves the original relative order of the
configs inside every kind group: each group is an order-preserving sublist
of the input, and holds only configs whose first matching predicate is that
group's kind. -/
theorem c9_group_order (cfgs : List Config) (g : Groups)
    (h : classifyLoop emptyGroups cfgs = Except.ok g) :
    ∀ k, (g.get k).Sublist cfgs ∧ ∀ c ∈ g.get k, firstMatchKind c = some k := by
  intro k
  have hget := classifyLoop_ok_get cfgs emptyGroups g h k
  rw [emptyGroups_get, List.nil_append] at hget
  constructor
  · rw [hget]
    exact List.filter_sublist cfgs
  · intro c hc
    rw [hget] at hc
    have hp := List.of_mem_filter hc
    simpa using hp

theorem c9_witness :
    (Groups.get ⟨[fileCfg], [journalCfg, journalCfg2], [], [], []⟩ Kind.journal).Sublist
      [fileCfg, journalCfg, journalCfg2] := by
  exact ((c9_group_order [fileCfg, journalCfg, journalCfg2]
    ⟨[fileCfg], [journalCfg, journalCfg2], [], [], []⟩ rfl) Kind.journal).1

/-- Claim C3: with the stdin flag set and a successful stdin constructor,
the manager holds exactly the one stdin backend and no position store, for
any scrape-config list, and the only external call is the stdin
constructor (no classification, no position store, no metrics). -/
theorem c3_stdin_short_circuit (env : Env) (cfgs : List Config) (b : Backend)
    (h : env.newStdin cfgs = Except.ok b) :
    (NewTargetManagers env true cfgs).2 =
        (some { targetManagers := [b], positions := none }, none) ∧
      (NewTargetManagers env true cfgs).1 = [Effect.newStdinCall] ∧
      ∀ m, (NewTargetManagers env true cfgs).2.1 = some m →
        m.targetManagers.length = 1 ∧ m.positions = none := by
  refine ⟨by simp [NewTargetManagers, h], by simp [NewTargetManagers, h], ?_⟩
  intro m hm
  simp [NewTargetManagers, h] at hm
  rw [← hm]
  exact ⟨rfl, rfl⟩

theorem c3_witness :
    (NewTargetManagers envStdinOk true [unknownCfg, fileCfg]).2 =
      (some { targetManagers := [exBackend], positions := none }, none) := by
  exact (c3_stdin_short_circuit envStdinOk [unknownCfg, fileCfg] exBackend rfl).1

/-- Claim C7: in non-short-circuit mode, a metrics registry is created for
a kind iff that kind's group is non-empty and the kind is file, syslog or
gcplog; the journal and push kinds never trigger registry creation. -/
theorem c7_lazy_metrics (env : Env) (cfgs : List Config) (p : Positions) (g : Groups)
    (hp : env.newPositions = Except.ok p)
    (hg : classifyLoop emptyGroups cfgs = Except.ok g) :
    (Effect.newMetrics Kind.file ∈ (NewTargetManagers env false cfgs).1 ↔ g.file ≠ []) ∧
      (Effect.newMetrics Kind.syslog ∈ (NewTargetManagers env false cfgs).1 ↔ g.syslog ≠ []) ∧
      (Effect.newMetrics Kind.gcplog ∈ (NewTargetManagers env false cfgs).1 ↔ g.gcplog ≠ []) ∧
      Effect.newMetrics Kind.journal ∉ (NewTargetManagers env false cfgs).1 ∧
      Effect.newMetrics Kind.push ∉ (NewTargetManagers env false cfgs).1 := by
  have htr := newTargetManagers_classify_ok env cfgs p g hp hg
  have hcl : ∀ k : Kind, Effect.newMetrics k ∉ (ctorLoop env g kindOrder []).1 := by
    intro k hmem
    obtain ⟨k', hk'⟩ := ctorLoop_effects env g kindOrder [] _ hmem
    exact absurd hk' (by simp)
  refine ⟨?_, ?_, ?_, ?_, ?_⟩ <;>
    rw [htr] <;>
    simp [List.mem_append, mem_metricsEffects, hcl]

theorem c7_witness :
    (Effect.newMetrics Kind.file ∈ (NewTargetManagers envNoMatch false [fileCfg, journalCfg]).1) ∧
      Effect.newMetrics Kind.journal ∉ (NewTargetManagers envNoMatch false [fileCfg, journalCfg]).1 := by
  have h := c7_lazy_metrics envNoMatch [fileCfg, journalCfg] posEx
    ⟨[fileCfg], [journalCfg], [], [], []⟩ rfl rfl
  exact ⟨h.1.mpr (by decide), h.2.2.2.1⟩

/-- Claim C8, counterexample: the source creates the position store
(manager.go line 65) before the classification loop (line 70), so on a
list holding an unrecognized config the construction fails with the
classification error even though the position store was already created:
the trace of this concrete run contains the position-store call. -/
theorem c8_counterexample :
    Effect.newPositionsCall ∈ (NewTargetManagers envNoMatch false [unknownCfg]).1 ∧
      (NewTargetManagers envNoMatch false [unknownCfg]).2 =
        (none, some "unknown scrape config") := by
  decide

/-- Claim C8 as amended: in non-short-circuit mode the position store is
provisioned before the list is classified; when the list contains an
unrecognized config, construction fails with the classification error, but
the position store has already been created — the position-store call is
the one external call of the whole run. -/
theorem c8_positions_before_classify (env : Env) (cfgs : List Config) (p : Positions)
    (hp : env.newPositions = Except.ok p)
    (hbad : ∃ c ∈ cfgs, firstMatchKind c = none) :
    (NewTargetManagers env false cfgs).1 = [Effect.newPositionsCall] ∧
      (NewTargetManagers env false cfgs).2 = (none, some "unknown scrape config") := by
  have herr := classifyLoop_error_of_unmatched cfgs emptyGroups hbad
  have h := newTargetManagers_classify_error env cfgs p _ hp herr
  rw [h]
  exact ⟨rfl, rfl⟩

theorem c8_witness :
    (NewTargetManagers envNoMatch false [journalCfg, unknownCfg]).1 =
      [Effect.newPositionsCall] := by
  exact (c8_positions_before_classify envNoMatch [journalCfg, unknownCfg] posEx rfl
    (by decide)).1

/-- Claim C4, failing input: a gcplog-kind group whose constructor fails is
wrapped with the syslog message (manager.go line 148), not a message
identifying the gcplog kind: the construction error of this concrete run
is the syslog wrap around the gcplog constructor's error. -/
theorem c4_gcplog_wrap_bug :
    (NewTargetManagers envGcBug false [gcplogOnlyCfg]).2 =
      (none, some "failed to make syslog target manager: boom") := by
  decide
